import Mathlib

/-!
Verification of the resilient API client of the SCDIS dashboard
(`src/frontend/lib/api.ts`) and of the polling-loop request lock
(`src/frontend/app/page.tsx`), as a shallow embedding in Lean.

HTTP transport is modelled by a function from full URLs to fetch outcomes;
JSON decoding of a successful response is modelled by returning the raw
body text (decoding is a deterministic function of the body, irrelevant to
the routing logic under study).
-/

namespace SCDIS

/-- Outcome of one `fetch(url)` call: either the transport itself throws
(DNS/connection failure), or a response with a status code and body text
arrives. -/
inductive FetchOutcome where
  | transportError (msg : String)
  | response (status : Nat) (body : String)
deriving DecidableEq, Repr

/-- `Response.ok` of the Fetch API: status in the range 200..299. -/
def FetchOutcome.isOk : FetchOutcome → Bool
  | .transportError _ => false
  | .response status _ => 200 ≤ status && status < 300

/-- Body text of a response (empty for a transport error, which has none). -/
def FetchOutcome.bodyText : FetchOutcome → String
  | .transportError _ => ""
  | .response _ body => body

/-- The error message the client records for a failed attempt: the caught
transport error message, or the string built at
`new Error(` + "API " + `status` + ": " + `message or "request failed"` + `)`. -/
def FetchOutcome.errMsg : FetchOutcome → String
  | .transportError msg => msg
  | .response status body =>
      "API " ++ toString status ++ ": " ++ (if body = "" then "request failed" else body)

/-- Result and observable effects of one `apiRequest` call: the returned
value or thrown error, the value of the module-level `activeApiBaseUrl`
after the call, and the ordered list of base URLs actually fetched
(the insertion order of the `triedBases` set). -/
structure ApiOutcome where
  result : Except String String
  active : String
  attempted : List String
deriving Repr

/-- The candidate sweep of `apiRequest` (`for (const baseUrl of candidateBases)`),
with `tried` the `triedBases` set (most recent first; `tried.reverse` is
insertion order) and `lastError` the `lastError` variable.

Fidelity note: in the source the `throw responseError` for a non-404
non-success status sits inside the same `try` block whose `catch` assigns
`lastError` and falls through to the next loop iteration, so at run time
the 404 branch and the non-404 branch both record the error and continue;
the sweep aborts early only on a success. -/
def apiRequestGo (fetch : String → FetchOutcome) (path : String) (active : String) :
    List String → List String → Option String → ApiOutcome
  | [], tried, lastError =>
      { result := .error (lastError.getD "request failed"),
        active := active, attempted := tried.reverse }
  | base :: rest, tried, lastError =>
      if base ∈ tried then
        apiRequestGo fetch path active rest tried lastError
      else
        match fetch (base ++ path) with
        | .transportError msg =>
            apiRequestGo fetch path active rest (base :: tried) (some msg)
        | .response status body =>
            if 200 ≤ status && status < 300 then
              { result := .ok body, active := base, attempted := (base :: tried).reverse }
            else
              -- `responseError` as built in the source
              apiRequestGo fetch path active rest (base :: tried)
                (some ("API " ++ toString status ++ ": "
                  ++ (if body = "" then "request failed" else body)))

/-- `apiRequest(path, init)` against a given transport, configured fallback
candidate list and current `activeApiBaseUrl`:
`candidateBases = [activeApiBaseUrl, ...API_FALLBACK_CANDIDATES.filter(b => b !== activeApiBaseUrl)]`,
then the sweep with empty `triedBases` and null `lastError`. -/
def apiRequest (fetch : String → FetchOutcome) (path : String)
    (candidates : List String) (activeApiBaseUrl : String) : ApiOutcome :=
  apiRequestGo fetch path activeApiBaseUrl
    (activeApiBaseUrl :: candidates.filter (· ≠ activeApiBaseUrl)) [] none

/-- First-occurrence deduplication with an explicit seen set, mirroring
both `Array.from(new Set(...))` and the `triedBases` guard of the sweep. -/
def dedupFirstAux (seen : List String) : List String → List String
  | [] => []
  | b :: rest =>
      if b ∈ seen then dedupFirstAux seen rest
      else b :: dedupFirstAux (b :: seen) rest

/-- `Array.from(new Set(l))`: duplicates removed, first occurrence kept. -/
def dedupFirst (l : List String) : List String := dedupFirstAux [] l

/-- `API_FALLBACK_CANDIDATES`: the primary base URL (from configuration)
followed by the two hardcoded fallbacks, deduplicated. -/
def apiFallbackCandidates (primary : String) : List String :=
  dedupFirst [primary, "http://localhost:8010", "http://127.0.0.1:8010"]

/-- The order in which one `apiRequest` call considers distinct base URLs:
the active base URL first, then the configured candidates with the active
one removed, first occurrences kept. -/
def candidateOrder (candidates : List String) (activeApiBaseUrl : String) : List String :=
  activeApiBaseUrl :: dedupFirst (candidates.filter (· ≠ activeApiBaseUrl))

/-- The failure message after sweeping `bases` without a success, starting
from a recorded `lastError`: the error of the last base, or
`lastError ?? "request failed"` when there is no base. -/
def lastErrMsg (fetch : String → FetchOutcome) (path : String)
    (lastError : Option String) : List String → String
  | [] => lastError.getD "request failed"
  | b :: rest => lastErrMsg fetch path (some (fetch (b ++ path)).errMsg) rest

/-- An attempt outcome that the client treats as a routing problem and a
reason to move on to the next candidate: a thrown transport error, or an
HTTP 404 response. -/
def FetchOutcome.isRoutingFailure : FetchOutcome → Bool
  | .transportError _ => true
  | .response status _ => status == 404

/-- Transport where host `A` answers 500 and host `B` answers 200: the
scenario separating "fail fast on a non-404 error" from "keep sweeping". -/
def fetchAB : String → FetchOutcome := fun url =>
  if url = "A/p" then .response 500 "boom"
  else if url = "B/p" then .response 200 "okB"
  else .response 404 ""

/-- Transport for the failover example of the spec: host `B` lacks the
endpoint (404), host `A` serves it (200), host `C` lacks it too. -/
def fetchSpecExample : String → FetchOutcome := fun url =>
  if url = "A/p" then .response 200 "okA"
  else if url = "B/p" then .response 404 ""
  else .response 404 ""

/-- Transport where host `A` is unreachable and host `B` answers 404:
every candidate fails. -/
def fetchAllDown : String → FetchOutcome := fun url =>
  if url = "A/p" then .transportError "down"
  else .response 404 "missing"

/-! Response normalization (`mapDecisionForUi` and its helpers).
Backend JSON numbers are modelled as rationals; an absent optional field is
`none`. Date parsing and locale formatting are environment facilities of the
JavaScript runtime, modelled by an explicit `DateEnv`. -/

/-- `optimized_decision` of a backend decision payload, all fields optional. -/
structure OptimizedDecision where
  recommended_reduction : Option ℚ
  cost_saving_estimate : Option ℚ
  stability_score : Option ℚ
deriving DecidableEq, Repr, Inhabited

/-- `BackendDecisionPayload`, all fields optional. -/
structure BackendDecisionPayload where
  timestamp : Option String
  rl_action : Option String
  optimized_decision : Option OptimizedDecision
deriving DecidableEq, Repr, Inhabited

/-- `GenerateDecisionResponse` (the `status` field plays no role in
normalization and is carried for fidelity). -/
structure GenerateDecisionResponse where
  status : Option String
  decision : Option BackendDecisionPayload
deriving DecidableEq, Repr, Inhabited

/-- `UiDecision`: the fully-defaulted record handed to the UI. -/
structure UiDecision where
  rlAction : String
  reduction : ℚ
  costSaved : ℚ
  stabilityScore : ℚ
  timestamp : String
deriving DecidableEq, Repr

/-- The date/locale facilities of the JavaScript runtime: `new Date(s)`
(`none` when the result is an Invalid Date), `toLocaleTimeString` on a
parsed instant, and the current instant for `new Date()`. -/
structure DateEnv where
  parseDate : String → Option Int
  formatTime : Int → String
  nowMillis : Int

/-- `toSafeNumber(value, fallback)`: `Number(value)` when that is finite,
`fallback` otherwise. `Number(undefined)` is `NaN`, so an absent field
yields the fallback; a present JSON number is finite and yields itself.
(Call sites in the source all use the default `fallback = 0`.) -/
def toSafeNumber (value : Option ℚ) (fallback : ℚ) : ℚ :=
  match value with
  | some q => q
  | none => fallback

/-- `Math.round`: nearest integer, halves rounding toward positive
infinity, i.e. the floor of `q + 1/2`. -/
def jsRound (q : ℚ) : ℤ :=
  ⌊q + 1/2⌋

/-- `Number(x.toFixed(2))`: `x` rounded to two decimal places (ECMAScript
`toFixed` picks the closest `n / 100` and the larger `n` on a tie). -/
def toFixed2 (q : ℚ) : ℚ :=
  ((jsRound (q * 100) : ℤ) : ℚ) / 100

/-- `toDisplayTime(timestamp?)`: locale-format the parsed timestamp, or the
current instant when the timestamp is absent or unparsable. -/
def toDisplayTime (env : DateEnv) (timestamp : Option String) : String :=
  match timestamp with
  | none => env.formatTime env.nowMillis
  | some s =>
      match env.parseDate s with
      | none => env.formatTime env.nowMillis
      | some t => env.formatTime t

/-- `mapDecisionForUi(response)`: `decision ?? {}` and
`decision.optimized_decision ?? {}` are the all-fields-absent defaults. -/
def mapDecisionForUi (env : DateEnv) (response : GenerateDecisionResponse) : UiDecision :=
  let decision := response.decision.getD default
  let optimizedDecision := decision.optimized_decision.getD default
  { rlAction := decision.rl_action.getD "unknown_action",
    reduction := ((max 0 (jsRound (toSafeNumber optimizedDecision.recommended_reduction 0)) : ℤ) : ℚ),
    costSaved := toFixed2 (toSafeNumber optimizedDecision.cost_saving_estimate 0),
    stabilityScore := toFixed2 (toSafeNumber optimizedDecision.stability_score 0),
    timestamp := toDisplayTime env decision.timestamp }

/-! The polling loop of `src/frontend/app/page.tsx` (`fetchLiveData`).
The function runs in two phases around its single `await`: the synchronous
prologue up to issuing the network call, and the epilogue that runs when the
call resolves or rejects. Component state not touched by the lock lifecycle
(runtime mode, scenario, decision) is summarized by the fetched payload and
the decision-error message. -/

/-- The component state relevant to the poll loop: the `requestLock` ref,
the `isScanning` flag, the last live payload and the decision error. -/
structure PageState where
  requestLock : Bool
  isScanning : Bool
  liveData : Option String
  decisionError : Option String
deriving DecidableEq, Repr

/-- How the awaited `getLiveLaptopDashboard()` call ends: a payload, or a
thrown error with its message. -/
inductive ScanOutcome where
  | ok (payload : String)
  | error (msg : String)
deriving DecidableEq, Repr

/-- Prologue of `fetchLiveData(options)`: the early return when
`requestLock.current && !options?.force`, else acquire the lock and set the
scanning flag. The boolean is `true` exactly when the invocation proceeds
to issue the network call. -/
def fetchLiveDataEnter (force : Bool) (s : PageState) : Bool × PageState :=
  if s.requestLock && !force then
    (false, s)
  else
    (true, { s with requestLock := true, isScanning := true })

/-- Epilogue of `fetchLiveData`: the `try` body on success or the `catch`
on failure, then the `finally` block clearing the scanning flag and the
lock on either path. -/
def fetchLiveDataExit (outcome : ScanOutcome) (s : PageState) : PageState :=
  let s1 :=
    match outcome with
    | .ok payload => { s with liveData := some payload, decisionError := none }
    | .error msg => { s with decisionError := some msg }
  { s1 with isScanning := false, requestLock := false }

/-- One uninterleaved invocation of `fetchLiveData`: the prologue, and when
it proceeds, the epilogue for the given outcome of the awaited call. -/
def fetchLiveDataRun (force : Bool) (outcome : ScanOutcome) (s : PageState) : PageState :=
  let step := fetchLiveDataEnter force s
  if step.1 then fetchLiveDataExit outcome step.2 else step.2

/-- A concrete date environment: parses exactly the sample timestamp of the
spec, formats an instant by printing its milliseconds. -/
def sampleDateEnv : DateEnv where
  parseDate := fun s => if s = "2024-01-01T10:00:00Z" then some 1704103200000 else none
  formatTime := fun t => "T" ++ toString t
  nowMillis := 0

/-! Helper lemmas: first-occurrence deduplication, and how the sweep of
`apiRequestGo` relates to the deduplicated candidate order. -/

theorem dedupFirstAux_congr (l : List String) :
    ∀ seen₁ seen₂, (∀ x, x ∈ seen₁ ↔ x ∈ seen₂) →
      dedupFirstAux seen₁ l = dedupFirstAux seen₂ l := by
  induction l with
  | nil => intro seen₁ seen₂ _; rfl
  | cons b rest ih =>
    intro seen₁ seen₂ h
    by_cases hb : b ∈ seen₁
    · simp only [dedupFirstAux]
      rw [if_pos hb, if_pos ((h b).mp hb)]
      exact ih seen₁ seen₂ h
    · simp only [dedupFirstAux]
      rw [if_neg hb, if_neg (fun hc => hb ((h b).mpr hc))]
      exact congrArg (b :: ·) (ih (b :: seen₁) (b :: seen₂) (fun x => by simp [h x]))

theorem dedupFirstAux_drop_seen (x : String) (l : List String) :
    ∀ seen, x ∉ l → dedupFirstAux (x :: seen) l = dedupFirstAux seen l := by
  induction l with
  | nil => intro seen _; rfl
  | cons b rest ih =>
    intro seen h
    have hbx : b ≠ x := fun e => h (by simp [e])
    have hxr : x ∉ rest := fun e => h (by simp [e])
    by_cases hb : b ∈ seen
    · simp only [dedupFirstAux]
      rw [if_pos (by simp [hb]), if_pos hb]
      exact ih seen hxr
    · have hb' : b ∉ x :: seen := by simp [hb, hbx]
      simp only [dedupFirstAux]
      rw [if_neg hb', if_neg hb]
      refine congrArg (b :: ·) ?_
      calc dedupFirstAux (b :: x :: seen) rest
          = dedupFirstAux (x :: b :: seen) rest :=
            dedupFirstAux_congr rest _ _ (fun y => by simp; tauto)
        _ = dedupFirstAux (b :: seen) rest := ih (b :: seen) hxr

theorem dedupFirstAux_nodup (l : List String) :
    ∀ seen, (dedupFirstAux seen l).Nodup ∧ ∀ x ∈ dedupFirstAux seen l, x ∉ seen := by
  induction l with
  | nil => intro seen; simp [dedupFirstAux]
  | cons b rest ih =>
    intro seen
    by_cases hb : b ∈ seen
    · simp only [dedupFirstAux]
      rw [if_pos hb]
      exact ih seen
    · simp only [dedupFirstAux]
      rw [if_neg hb]
      obtain ⟨hnd, hmem⟩ := ih (b :: seen)
      refine ⟨List.nodup_cons.mpr ⟨fun hx => (hmem b hx) (by simp), hnd⟩, ?_⟩
      intro x hx hxs
      rcases List.mem_cons.mp hx with rfl | hx'
      · exact hb hxs
      · exact hmem x hx' (by simp [hxs])

theorem dedupFirstAux_candidateOrder (candidates : List String) (active : String) :
    dedupFirstAux [] (active :: candidates.filter (· ≠ active))
      = candidateOrder candidates active := by
  have hact : active ∉ candidates.filter (· ≠ active) := by
    intro h
    have := List.of_mem_filter h
    simp at this
  simp only [dedupFirstAux, candidateOrder, dedupFirst]
  rw [if_neg (List.not_mem_nil active)]
  exact congrArg (active :: ·) (dedupFirstAux_drop_seen active _ [] hact)

theorem apiRequestGo_find_some (fetch : String → FetchOutcome) (path active : String)
    (cands : List String) :
    ∀ (tried : List String) (lastError : Option String) (c : String),
      (dedupFirstAux tried cands).find? (fun b => (fetch (b ++ path)).isOk) = some c →
      (apiRequestGo fetch path active cands tried lastError).result
          = Except.ok (fetch (c ++ path)).bodyText ∧
        (apiRequestGo fetch path active cands tried lastError).active = c := by
  induction cands with
  | nil => intro tried lastError c h; simp [dedupFirstAux] at h
  | cons base rest ih =>
    intro tried lastError c h
    by_cases hb : base ∈ tried
    · rw [dedupFirstAux, if_pos hb] at h
      simp only [apiRequestGo]
      rw [if_pos hb]
      exact ih tried lastError c h
    · rw [dedupFirstAux, if_neg hb] at h
      simp only [apiRequestGo]
      rw [if_neg hb]
      cases hp : (fetch (base ++ path)).isOk with
      | true =>
        rw [List.find?_cons] at h
        simp only [hp] at h
        obtain rfl : base = c := by simpa using h
        rcases heq : fetch (base ++ path) with msg | ⟨status, body⟩
        · rw [heq] at hp
          simp [FetchOutcome.isOk] at hp
        · rw [heq] at hp
          simp only [FetchOutcome.isOk] at hp
          simp [hp, FetchOutcome.bodyText]
      | false =>
        rw [List.find?_cons] at h
        simp only [hp] at h
        rcases heq : fetch (base ++ path) with msg | ⟨status, body⟩
        · exact ih (base :: tried) (some msg) c h
        · rw [heq] at hp
          simp only [FetchOutcome.isOk] at hp
          simp only [hp]
          exact ih (base :: tried) _ c h

theorem apiRequestGo_find_none (fetch : String → FetchOutcome) (path active : String)
    (cands : List String) :
    ∀ (tried : List String) (lastError : Option String),
      (dedupFirstAux tried cands).find? (fun b => (fetch (b ++ path)).isOk) = none →
      apiRequestGo fetch path active cands tried lastError =
        { result := Except.error (lastErrMsg fetch path lastError (dedupFirstAux tried cands)),
          active := active,
          attempted := tried.reverse ++ dedupFirstAux tried cands } := by
  induction cands with
  | nil =>
    intro tried lastError _
    simp [apiRequestGo, dedupFirstAux, lastErrMsg]
  | cons base rest ih =>
    intro tried lastError h
    by_cases hb : base ∈ tried
    · rw [dedupFirstAux, if_pos hb] at h ⊢
      simp only [apiRequestGo]
      rw [if_pos hb]
      exact ih tried lastError h
    · rw [dedupFirstAux, if_neg hb] at h ⊢
      rw [List.find?_cons] at h
      cases hp : (fetch (base ++ path)).isOk with
      | true => simp [hp] at h
      | false =>
        simp only [hp] at h
        simp only [apiRequestGo]
        rw [if_neg hb]
        rcases heq : fetch (base ++ path) with msg | ⟨status, body⟩
        · refine (ih (base :: tried) (some msg) h).trans ?_
          simp [lastErrMsg, heq, FetchOutcome.errMsg]
        · rw [heq] at hp
          simp only [FetchOutcome.isOk] at hp
          simp only [hp]
          refine (ih (base :: tried) _ h).trans ?_
          simp [lastErrMsg, heq, FetchOutcome.errMsg]

theorem apiRequestGo_attempted (fetch : String → FetchOutcome) (path active : String)
    (cands : List String) :
    ∀ (tried : List String) (lastError : Option String),
      ∃ q, q <+: dedupFirstAux tried cands ∧
        (apiRequestGo fetch path active cands tried lastError).attempted
          = tried.reverse ++ q := by
  induction cands with
  | nil =>
    intro tried lastError
    exact ⟨[], List.nil_prefix, by simp [apiRequestGo]⟩
  | cons base rest ih =>
    intro tried lastError
    by_cases hb : base ∈ tried
    · rw [dedupFirstAux, if_pos hb]
      simp only [apiRequestGo]
      rw [if_pos hb]
      exact ih tried lastError
    · rw [dedupFirstAux, if_neg hb]
      simp only [apiRequestGo]
      rw [if_neg hb]
      rcases heq : fetch (base ++ path) with msg | ⟨status, body⟩
      · obtain ⟨q, hq, hat⟩ := ih (base :: tried) (some msg)
        obtain ⟨t, ht⟩ := hq
        exact ⟨base :: q, ⟨t, by simp [ht]⟩, by simp [hat]⟩
      · cases hcond : (decide (200 ≤ status) && decide (status < 300)) with
        | true =>
          refine ⟨[base], ⟨dedupFirstAux (base :: tried) rest, rfl⟩, ?_⟩
          simp [hcond]
        | false =>
          simp only [hcond]
          obtain ⟨q, hq, hat⟩ := ih (base :: tried)
            (some ("API " ++ toString status ++ ": "
              ++ (if body = "" then "request failed" else body)))
          obtain ⟨t, ht⟩ := hq
          exact ⟨base :: q, ⟨t, by simp [ht]⟩, by simp [hat]⟩

theorem apiRequestGo_attempted_head (fetch : String → FetchOutcome) (path active base : String)
    (rest tried : List String) (lastError : Option String) (hb : base ∉ tried) :
    ∃ q, (apiRequestGo fetch path active (base :: rest) tried lastError).attempted
        = tried.reverse ++ base :: q := by
  simp only [apiRequestGo]
  rw [if_neg hb]
  rcases heq : fetch (base ++ path) with msg | ⟨status, body⟩
  · obtain ⟨q, _, hat⟩ := apiRequestGo_attempted fetch path active rest (base :: tried) (some msg)
    exact ⟨q, by simp [hat]⟩
  · cases hcond : (decide (200 ≤ status) && decide (status < 300)) with
    | true => exact ⟨[], by simp [hcond]⟩
    | false =>
      simp only [hcond]
      obtain ⟨q, _, hat⟩ := apiRequestGo_attempted fetch path active rest (base :: tried)
        (some ("API " ++ toString status ++ ": "
          ++ (if body = "" then "request failed" else body)))
      exact ⟨q, by simp [hat]⟩

/-! Claim theorems. -/

/-- Claim C1, evaluated at a concrete input: the active host `A` answers
500 (a non-404 non-success status), yet the sweep goes on to attempt `B`
and the call succeeds with the body served by `B`. The `throw responseError`
meant to fail fast sits inside the same try/catch that records routing
failures, so the recorded error is swallowed and further candidates ARE
attempted — the code does not fail immediately as the claim requires. -/
theorem apiRequest_continues_after_500 :
    fetchAB ("A" ++ "/p") = .response 500 "boom" ∧
    (apiRequest fetchAB "/p" ["B"] "A").attempted = ["A", "B"] ∧
    (apiRequest fetchAB "/p" ["B"] "A").result = Except.ok "okB" :=
  ⟨rfl, rfl, rfl⟩

/-- Claim C2: within one `apiRequest` call the candidate base URLs are
attempted in the order: current active base URL first, then the configured
candidate list with the active base URL removed; the attempted list is a
prefix of that deduplicated order (the sweep may stop early), starts at the
active base URL, and attempts no base URL more than once even when the
configuration repeats one. -/
theorem apiRequest_attempt_order (fetch : String → FetchOutcome) (path : String)
    (candidates : List String) (active : String) :
    (apiRequest fetch path candidates active).attempted <+: candidateOrder candidates active ∧
    (apiRequest fetch path candidates active).attempted.Nodup ∧
    (apiRequest fetch path candidates active).attempted.head? = some active := by
  obtain ⟨q, hq, hat⟩ := apiRequestGo_attempted fetch path active
    (active :: candidates.filter (· ≠ active)) [] none
  rw [dedupFirstAux_candidateOrder] at hq
  have hnd : (candidateOrder candidates active).Nodup := by
    rw [← dedupFirstAux_candidateOrder]
    exact (dedupFirstAux_nodup _ []).1
  have hat' : (apiRequest fetch path candidates active).attempted = q := by
    simpa [apiRequest] using hat
  obtain ⟨q₂, hhead⟩ := apiRequestGo_attempted_head fetch path active active
    (candidates.filter (· ≠ active)) [] none (List.not_mem_nil active)
  refine ⟨?_, ?_, ?_⟩
  · rw [hat']; exact hq
  · rw [hat']; exact hq.sublist.nodup hnd
  · have h2 : (apiRequest fetch path candidates active).attempted = active :: q₂ := by
      simpa [apiRequest] using hhead
    rw [h2]; rfl

/-- Claim C3: when the first-tried candidate (the active base URL) returns
404 and a later candidate answers 2xx, the call returns the decoded body of
the first 2xx candidate of the sweep order, and the active base URL equals
that candidate afterwards. -/
theorem apiRequest_404_failover (fetch : String → FetchOutcome) (path : String)
    (candidates : List String) (active c body404 : String)
    (h404 : fetch (active ++ path) = .response 404 body404)
    (hfind : (candidateOrder candidates active).find?
        (fun b => (fetch (b ++ path)).isOk) = some c) :
    (apiRequest fetch path candidates active).result
        = Except.ok (fetch (c ++ path)).bodyText ∧
      (apiRequest fetch path candidates active).active = c := by
  have h := apiRequestGo_find_some fetch path active
    (active :: candidates.filter (· ≠ active)) [] none c
    (by rw [dedupFirstAux_candidateOrder]; exact hfind)
  simpa [apiRequest] using h

theorem apiRequest_404_failover_witness :
    fetchSpecExample ("B" ++ "/p") = .response 404 "" ∧
    (candidateOrder ["A", "B", "C"] "B").find?
        (fun b => (fetchSpecExample (b ++ "/p")).isOk) = some "A" ∧
    ((apiRequest fetchSpecExample "/p" ["A", "B", "C"] "B").result
        = Except.ok (fetchSpecExample ("A" ++ "/p")).bodyText ∧
      (apiRequest fetchSpecExample "/p" ["A", "B", "C"] "B").active = "A") :=
  ⟨rfl, by decide,
    apiRequest_404_failover fetchSpecExample "/p" ["A", "B", "C"] "B" "A" "" rfl (by decide)⟩

/-- Claim C4: when every candidate of the sweep order fails as a routing
failure (404 or transport error), the call terminates with the last
recorded error — the error of the last candidate, or the generic
"request failed" message had no attempt been recorded — after attempting
the whole order; it never returns a success value. -/
theorem apiRequest_exhaustion (fetch : String → FetchOutcome) (path : String)
    (candidates : List String) (active : String)
    (hfail : ∀ b ∈ candidateOrder candidates active,
      (fetch (b ++ path)).isRoutingFailure = true) :
    (apiRequest fetch path candidates active).result
        = Except.error (lastErrMsg fetch path none (candidateOrder candidates active)) ∧
      (apiRequest fetch path candidates active).attempted
        = candidateOrder candidates active := by
  have hnone : (candidateOrder candidates active).find?
      (fun b => (fetch (b ++ path)).isOk) = none := by
    rw [List.find?_eq_none]
    intro b hb hOk
    have hrf := hfail b hb
    rcases hfb : fetch (b ++ path) with msg | ⟨status, body⟩
    · rw [hfb] at hOk
      simp [FetchOutcome.isOk] at hOk
    · rw [hfb] at hOk hrf
      simp only [FetchOutcome.isOk, decide_eq_true_eq, Bool.and_eq_true] at hOk
      simp only [FetchOutcome.isRoutingFailure, Nat.beq_eq_true_eq] at hrf
      omega
  have h := apiRequestGo_find_none fetch path active
    (active :: candidates.filter (· ≠ active)) [] none
    (by rw [dedupFirstAux_candidateOrder]; exact hnone)
  rw [dedupFirstAux_candidateOrder] at h
  constructor
  · rw [apiRequest, h]
  · rw [apiRequest, h]
    simp

theorem apiRequest_exhaustion_witness :
    (∀ b ∈ candidateOrder ["B"] "A", (fetchAllDown (b ++ "/p")).isRoutingFailure = true) ∧
    ((apiRequest fetchAllDown "/p" ["B"] "A").result
        = Except.error (lastErrMsg fetchAllDown "/p" none (candidateOrder ["B"] "A")) ∧
      (apiRequest fetchAllDown "/p" ["B"] "A").attempted = candidateOrder ["B"] "A") :=
  ⟨by decide, apiRequest_exhaustion fetchAllDown "/p" ["B"] "A" (by decide)⟩

/-- Claim C5 counterexample: host `A` (the active base URL, tried first)
returns 500 — the first non-404 response of the sweep — yet the active base
URL after the call is `B`, the host that answered 2xx, not `A`; a non-404
non-success response is not promoted. -/
theorem apiRequest_500_not_promoted :
    fetchAB ("A" ++ "/p") = .response 500 "boom" ∧
    (apiRequest fetchAB "/p" ["B"] "A").attempted = ["A", "B"] ∧
    (apiRequest fetchAB "/p" ["B"] "A").active = "B" ∧
    "B" ≠ "A" :=
  ⟨rfl, rfl, rfl, by decide⟩

/-- Claim C5 (amended): during a request, the first candidate URL that
returns a successful (2xx) response — rather than merely a non-404 one —
is promoted to the active base URL used by subsequent calls. -/
theorem apiRequest_promotes_first_ok (fetch : String → FetchOutcome) (path : String)
    (candidates : List String) (active c : String)
    (hfind : (candidateOrder candidates active).find?
        (fun b => (fetch (b ++ path)).isOk) = some c) :
    (apiRequest fetch path candidates active).active = c := by
  have h := apiRequestGo_find_some fetch path active
    (active :: candidates.filter (· ≠ active)) [] none c
    (by rw [dedupFirstAux_candidateOrder]; exact hfind)
  simpa [apiRequest] using h.2

theorem apiRequest_promotes_first_ok_witness :
    (candidateOrder ["B"] "A").find? (fun b => (fetchAB (b ++ "/p")).isOk) = some "B" ∧
    (apiRequest fetchAB "/p" ["B"] "A").active = "B" :=
  ⟨by decide, apiRequest_promotes_first_ok fetchAB "/p" ["B"] "A" "B" (by decide)⟩

/-- Claim C6: for the sample decision payload of the spec, normalization
yields rl action "reduce_load", reduction 13 (12.7 rounded), cost saved
3.46, stability score 0.91 (two-decimal rounding), and the locale-formatted
time of the payload timestamp. -/
theorem mapDecisionForUi_sample (env : DateEnv) (t : Int)
    (hparse : env.parseDate "2024-01-01T10:00:00Z" = some t) :
    mapDecisionForUi env
      { status := none,
        decision := some
          { timestamp := some "2024-01-01T10:00:00Z",
            rl_action := some "reduce_load",
            optimized_decision := some
              { recommended_reduction := some (127/10),
                cost_saving_estimate := some (3456/1000),
                stability_score := some (914/1000) } } }
      = { rlAction := "reduce_load", reduction := 13, costSaved := 346/100,
          stabilityScore := 91/100, timestamp := env.formatTime t } := by
  have h1 : jsRound (127/10) = 13 := by
    rw [jsRound, Int.floor_eq_iff]
    norm_num
  have h2 : jsRound (3456/1000 * 100) = 346 := by
    rw [jsRound, Int.floor_eq_iff]
    norm_num
  have h3 : jsRound (914/1000 * 100) = 91 := by
    rw [jsRound, Int.floor_eq_iff]
    norm_num
  simp only [mapDecisionForUi, Option.getD_some, toSafeNumber, toFixed2, toDisplayTime,
    hparse, UiDecision.mk.injEq, h1, h2, h3]
  norm_num

theorem mapDecisionForUi_sample_witness :
    sampleDateEnv.parseDate "2024-01-01T10:00:00Z" = some 1704103200000 ∧
    mapDecisionForUi sampleDateEnv
      { status := none,
        decision := some
          { timestamp := some "2024-01-01T10:00:00Z",
            rl_action := some "reduce_load",
            optimized_decision := some
              { recommended_reduction := some (127/10),
                cost_saving_estimate := some (3456/1000),
                stability_score := some (914/1000) } } }
      = { rlAction := "reduce_load", reduction := 13, costSaved := 346/100,
          stabilityScore := 91/100,
          timestamp := sampleDateEnv.formatTime 1704103200000 } :=
  ⟨rfl, mapDecisionForUi_sample sampleDateEnv 1704103200000 rfl⟩

/-- Claim C7: whenever the decision payload carries no `optimized_decision`
object — in particular when the decision object itself is absent — the
derived numeric fields all default to 0; normalization is a total function,
so no exception can arise. -/
theorem mapDecisionForUi_missing_optimized (env : DateEnv) (response : GenerateDecisionResponse)
    (h : (response.decision.getD default).optimized_decision = none) :
    (mapDecisionForUi env response).reduction = 0 ∧
    (mapDecisionForUi env response).costSaved = 0 ∧
    (mapDecisionForUi env response).stabilityScore = 0 := by
  have h0 : jsRound 0 = 0 := by
    rw [jsRound, Int.floor_eq_iff]
    norm_num
  refine ⟨?_, ?_, ?_⟩ <;>
    simp [mapDecisionForUi, h, toSafeNumber, toFixed2, h0,
      show (default : OptimizedDecision).recommended_reduction = none from rfl,
      show (default : OptimizedDecision).cost_saving_estimate = none from rfl,
      show (default : OptimizedDecision).stability_score = none from rfl]

theorem mapDecisionForUi_missing_optimized_witness :
    (({ status := none, decision := none } : GenerateDecisionResponse).decision.getD
        default).optimized_decision = none ∧
    ((mapDecisionForUi sampleDateEnv { status := none, decision := none }).reduction = 0 ∧
      (mapDecisionForUi sampleDateEnv { status := none, decision := none }).costSaved = 0 ∧
      (mapDecisionForUi sampleDateEnv { status := none, decision := none }).stabilityScore = 0) :=
  ⟨rfl, mapDecisionForUi_missing_optimized sampleDateEnv { status := none, decision := none } rfl⟩

/-- Claim C8: an unforced `fetchLiveData` invocation started while the
request lock is held returns immediately with the state untouched (the
`false` component records that no network call is issued), while a forced
invocation proceeds to issue its network call even though the lock is held
by a poll in flight. -/
theorem fetchLiveData_overlap_guard (s : PageState) (h : s.requestLock = true) :
    fetchLiveDataEnter false s = (false, s) ∧ (fetchLiveDataEnter true s).1 = true := by
  constructor
  · simp [fetchLiveDataEnter, h]
  · simp [fetchLiveDataEnter]

theorem fetchLiveData_overlap_guard_witness :
    (⟨true, true, none, none⟩ : PageState).requestLock = true ∧
    (fetchLiveDataEnter false ⟨true, true, none, none⟩
        = (false, (⟨true, true, none, none⟩ : PageState)) ∧
      (fetchLiveDataEnter true ⟨true, true, none, none⟩).1 = true) :=
  ⟨rfl, fetchLiveData_overlap_guard ⟨true, true, none, none⟩ rfl⟩

/-- Claim C9: every `fetchLiveData` invocation that acquires the request
lock (proceeds past the guard) ends — whether the awaited fetch resolves or
rejects — with the request lock cleared and the scanning indicator false:
the `finally` block runs on both exit paths. -/
theorem fetchLiveData_releases_lock (force : Bool) (outcome : ScanOutcome) (s : PageState)
    (h : (fetchLiveDataEnter force s).1 = true) :
    (fetchLiveDataRun force outcome s).requestLock = false ∧
    (fetchLiveDataRun force outcome s).isScanning = false := by
  cases outcome <;> simp [fetchLiveDataRun, fetchLiveDataExit, h]

theorem fetchLiveData_releases_lock_witness :
    (fetchLiveDataEnter true ⟨false, false, none, none⟩).1 = true ∧
    ((fetchLiveDataRun true (ScanOutcome.ok "payload") ⟨false, false, none, none⟩).requestLock
        = false ∧
      (fetchLiveDataRun true (ScanOutcome.ok "payload") ⟨false, false, none, none⟩).isScanning
        = false) :=
  ⟨rfl, fetchLiveData_releases_lock true (ScanOutcome.ok "payload") ⟨false, false, none, none⟩ rfl⟩

/-- Claim C10: the reduction field produced by normalization is always a
non-negative integer; in particular a negative recommended reduction such
as -5.2 is clamped to 0 rather than rounded to a negative number. -/
theorem mapDecisionForUi_reduction_nonneg :
    (∀ (env : DateEnv) (response : GenerateDecisionResponse),
        0 ≤ (mapDecisionForUi env response).reduction ∧
        ∃ n : ℕ, (mapDecisionForUi env response).reduction = (n : ℚ)) ∧
    (mapDecisionForUi sampleDateEnv
        { status := none,
          decision := some
            { timestamp := none, rl_action := none,
              optimized_decision := some
                { recommended_reduction := some (-52/10),
                  cost_saving_estimate := none,
                  stability_score := none } } }).reduction = 0 := by
  have hneg : jsRound (-52/10) = -5 := by
    rw [jsRound, Int.floor_eq_iff]
    norm_num
  constructor
  · intro env response
    obtain ⟨m, hm, he⟩ :
        ∃ m : ℤ, 0 ≤ m ∧ (mapDecisionForUi env response).reduction = (m : ℚ) :=
      ⟨_, le_max_left 0 _, rfl⟩
    refine ⟨by rw [he]; exact_mod_cast hm, m.toNat, ?_⟩
    rw [he]
    exact_mod_cast (Int.toNat_of_nonneg hm).symm
  · simp only [mapDecisionForUi, Option.getD_some, toSafeNumber, hneg]
    rw [max_eq_left (by norm_num : (-5:ℤ) ≤ 0)]
    norm_num

end SCDIS
